import Mathlib

/-!
# Verification of the wrangler tool-installation decision engine

Shallow embedding of `src/install/mod.rs`: the cache inspector
(`get_installation`), the version resolver (`tool_needs_update`), the
platform resolver and URL builder (`prebuilt_url`), the download step
(`download_prebuilt`) and the orchestrator (`install`), together with
theorems settling the specification's claims about them.

Rust `Result` is modelled as `Except`, a Rust panic as the `none` value of
an outer `Option` (a panic aborts instead of returning, so no value of the
return type is produced), and the filesystem / network collaborators as
explicit parameters: the cache directory listing is passed in as a value,
and the external artifact cache as a record of functions, with the calls
the code makes to it recorded in an event trace.

The Rust standard string primitives (`str::split`, `str::starts_with`,
numeric formatting) are modelled by structurally recursive functions over
the character list of the string, so that every definition evaluates by
kernel reduction on concrete inputs.
-/

namespace Wrangler

instance {ε α : Type} [DecidableEq ε] [DecidableEq α] : DecidableEq (Except ε α) := fun
  | Except.error e, Except.error f =>
    if h : e = f then Decidable.isTrue (h ▸ rfl)
    else Decidable.isFalse fun hc => h (Except.error.inj hc)
  | Except.error _, Except.ok _ => Decidable.isFalse Except.noConfusion
  | Except.ok _, Except.error _ => Decidable.isFalse Except.noConfusion
  | Except.ok a, Except.ok b =>
    if h : a = b then Decidable.isTrue (h ▸ rfl)
    else Decidable.isFalse fun hc => h (Except.ok.inj hc)

/-- Model of Rust `str::starts_with` with a string pattern. -/
def strStartsWith (s p : String) : Bool :=
  List.isPrefixOf p.toList s.toList

/-- Worker for `strSplit`: scan the characters left to right, splitting at
each non-overlapping occurrence of the (nonempty) separator, greedily from
the left, exactly as Rust `str::split` does. The fuel is the length of the
remaining input, so it never runs out; it only makes the recursion
structural. -/
def strSplitGo (sep : List Char) : Nat → List Char → List Char → List (List Char)
  | _, [], acc => [acc.reverse]
  | 0, s, acc => [acc.reverse ++ s]
  | Nat.succ fuel, c :: rest, acc =>
    if List.isPrefixOf sep (c :: rest) then
      acc.reverse :: strSplitGo sep fuel (List.drop sep.length (c :: rest)) []
    else
      strSplitGo sep fuel rest (c :: acc)

/-- Model of Rust `str::split` with a string pattern, for the nonempty
separators this code uses (the separators are `"<tool_name>-"` and `"."`,
never empty). An occurrence of the separator at the start or end of the
string contributes an empty piece, as in Rust. -/
def strSplit (s sep : String) : List String :=
  if sep.toList.isEmpty then [s]
  else (strSplitGo sep.toList s.toList.length s.toList []).map fun cs => ⟨cs⟩

/-- Modelled from the spec: the external `semver` crate's version type —
"semantic version triple (major, minor, patch)". Pre-release and build
metadata are not modelled; no claim depends on them. -/
structure Version where
  major : Nat
  minor : Nat
  patch : Nat
deriving DecidableEq, Repr

/-- Decimal value of a digit string, most significant digit first. -/
def digitsToNat : List Char → Nat → Nat
  | [], acc => acc
  | c :: rest, acc => digitsToNat rest (acc * 10 + (c.toNat - 48))

/-- Modelled from the spec: one numeric component of the strict
semantic-versioning grammar — a nonempty digit string with no leading
zero. -/
def parseNumPart (s : String) : Option Nat :=
  match s.toList with
  | [] => none
  | c :: rest =>
    if (c :: rest).all Char.isDigit && (c != '0' || rest.isEmpty) then
      some (digitsToNat (c :: rest) 0)
    else
      none

/-- Modelled from the spec: `Version::parse` of the external `semver`
crate, restricted to plain `major.minor.patch` triples ("parsed from
strings following a strict semantic-versioning grammar"). -/
def Version.parse (s : String) : Option Version :=
  match strSplit s "." with
  | [a, b, c] =>
    match parseNumPart a, parseNumPart b, parseNumPart c with
    | some ma, some mi, some pa => some ⟨ma, mi, pa⟩
    | _, _, _ => none
  | _ => none

/-- Modelled from the spec: the `semver` crate's total order (`>=`),
"standard semver comparison" — lexicographic on (major, minor, patch)
for plain triples. -/
def Version.ge (a b : Version) : Bool :=
  Nat.blt b.major a.major ||
    (a.major == b.major &&
      (Nat.blt b.minor a.minor ||
        (a.minor == b.minor && Nat.ble b.patch a.patch)))

/-- Decimal digits of `n`, most significant first; the fuel only makes the
recursion structural and never runs out at `n + 1`. -/
def natToDigits : Nat → Nat → List Char → List Char
  | 0, _, acc => acc
  | Nat.succ fuel, n, acc =>
    let d := Char.ofNat (48 + n % 10)
    if n < 10 then d :: acc else natToDigits fuel (n / 10) (d :: acc)

/-- Decimal rendering of a natural number (Rust `u64` `Display`). -/
def natToString (n : Nat) : String :=
  ⟨natToDigits (n + 1) n []⟩

/-- `Version::to_string` of the `semver` crate on a plain triple. -/
def Version.toString (v : Version) : String :=
  natToString v.major ++ "." ++ natToString v.minor ++ "." ++
    natToString v.patch

/-- One entry yielded by `fs::read_dir`: the iterator item may itself be an
`Err`, the filename may fail `into_string()` (non-unicode), or it is a
plain filename. -/
inductive DirEntry where
  | err (e : String)
  | nonUnicode
  | name (s : String)
deriving DecidableEq, Repr

/-- The cache-directory listing as seen by `get_installation`:
`fs::read_dir` either fails outright or yields a list of entries. -/
abbrev DirListing := Except String (List DirEntry)

/-- The loop body of `get_installation` over the directory entries.
`none` of the outer `Option` is a panic: the Rust code indexes `[1]` into
the result of `split`, which panics when the separator is absent.
`Except.error` is the `?`-propagated per-entry read error. -/
def get_installation_entries (tool_name : String) (target_version : Version)
    (dest : String) :
    List DirEntry → Option (Except String (Option (Version × String)))
  | [] => some (Except.ok none)
  | DirEntry.err e :: _ => some (Except.error e)
  | DirEntry.nonUnicode :: rest =>
    get_installation_entries tool_name target_version dest rest
  | DirEntry.name filename :: rest =>
    if strStartsWith filename tool_name then
      match (strSplit filename (tool_name ++ "-"))[1]? with
      | none => none
      | some suffix =>
        match Version.parse suffix with
        | some installed_version =>
          if installed_version = target_version then
            some (Except.ok (some (installed_version, dest ++ "/" ++ filename)))
          else
            get_installation_entries tool_name target_version dest rest
        | none => get_installation_entries tool_name target_version dest rest
    else
      get_installation_entries tool_name target_version dest rest

/-- `get_installation` from `src/install/mod.rs`: scan the cache directory
for an entry of the requested tool whose parsed version equals the target.
A failing `fs::read_dir` propagates as an error (`?`). -/
def get_installation (tool_name : String) (target_version : Version)
    (dest : String) (dir : DirListing) :
    Option (Except String (Option (Version × String))) :=
  match dir with
  | Except.error e => some (Except.error e)
  | Except.ok entries =>
    get_installation_entries tool_name target_version dest entries

/-- The `ToolDownload` enum of `src/install/mod.rs`. `Download::at(path)`
is modelled by the path itself. -/
inductive ToolDownload where
  | NeedsInstall (v : Version)
  | InstalledAt (path : String)
deriving DecidableEq, Repr

/-- `tool_needs_update` from `src/install/mod.rs`: an `Err` from
`get_installation` is absorbed by the `if let Ok(..)` ("we shouldn't fail,
we should just re-install for them"); a found installation is reused only
when its major equals the target's and it is `>=` the target. A panic in
`get_installation` still propagates (outer `none`). -/
def tool_needs_update (tool_name : String) (target_version : Version)
    (dest : String) (dir : DirListing) :
    Option (Except String ToolDownload) :=
  match get_installation tool_name target_version dest dir with
  | none => none
  | some current_installation =>
    some (Except.ok
      (match current_installation with
       | Except.ok (some (installed_version, installed_location)) =>
         if installed_version.major == target_version.major &&
             Version.ge installed_version target_version then
           ToolDownload.InstalledAt installed_location
         else
           ToolDownload.NeedsInstall target_version
       | _ => ToolDownload.NeedsInstall target_version))

/-- Modelled from the spec: the host operating-system family of
`src/install/target.rs` ("compile-time-known host OS (Linux / macOS /
Windows)"); `other` covers every further OS. -/
inductive OS where
  | linux
  | macos
  | windows
  | other
deriving DecidableEq, Repr

/-- Modelled from the spec: the host CPU architecture of
`src/install/target.rs` ("architecture (x86_64 / aarch64)"); `other`
covers every further architecture. -/
inductive Arch where
  | x86_64
  | aarch64
  | other
deriving DecidableEq, Repr

/-- Modelled from the spec: the compile-time host facts, "derived once per
process", read by `prebuilt_url` through the `target` module's flags. -/
structure Host where
  os : OS
  arch : Arch
deriving DecidableEq, Repr

/-- The `target::LINUX` flag. -/
def Host.LINUX (h : Host) : Bool := h.os == OS.linux

/-- The `target::MACOS` flag. -/
def Host.MACOS (h : Host) : Bool := h.os == OS.macos

/-- The `target::WINDOWS` flag. -/
def Host.WINDOWS (h : Host) : Bool := h.os == OS.windows

/-- The `target::x86_64` flag. -/
def Host.x86_64 (h : Host) : Bool := h.arch == Arch.x86_64

/-- The `target::aarch64` flag. -/
def Host.aarch64 (h : Host) : Bool := h.arch == Arch.aarch64

/-- The `if`/`else if` chain inside `prebuilt_url` that picks the target
triple from the `target` flags, with `none` for the final
`return None` (unsupported platform). -/
def resolve_target (h : Host) : Option String :=
  if h.LINUX && h.x86_64 then some "x86_64-unknown-linux-musl"
  else if h.MACOS && h.x86_64 then some "x86_64-apple-darwin"
  else if h.WINDOWS && h.x86_64 then some "x86_64-pc-windows-msvc"
  else if h.MACOS && h.aarch64 then some "aarch64-apple-darwin"
  else none

/-- `prebuilt_url` from `src/install/mod.rs`: the legacy `"wranglerjs"`
name gets the fixed legacy endpoint; otherwise the target triple is
resolved and the `aarch64-apple-darwin` triple is routed to the
`get-override` endpoint, every other resolved triple to `get-binary`. -/
def prebuilt_url (tool_name owner version : String) (h : Host) :
    Option String :=
  if tool_name == "wranglerjs" then
    some ("https://workers.cloudflare.com/get-wranglerjs-binary/" ++
      tool_name ++ "/v" ++ version ++ ".tar.gz")
  else
    match resolve_target h with
    | none => none
    | some target =>
      if target == "aarch64-apple-darwin" then
        some ("https://workers.cloudflare.com/get-override/" ++ owner ++
          "/" ++ tool_name ++ "/v" ++ version ++ "/" ++ target ++ ".tar.gz")
      else
        some ("https://workers.cloudflare.com/get-binary/" ++ owner ++
          "/" ++ tool_name ++ "/v" ++ version ++ "/" ++ target ++ ".tar.gz")

/-- One call made to the external artifact cache (`CACHE`), recorded in
the event trace of `download_prebuilt`. -/
inductive CacheCall where
  | download_version (expect_binaries : Bool) (tool_name : String)
      (binaries : List String) (url : String) (version : String)
  | download_artifact_version (tool_name : String) (url : String)
      (version : String)
deriving DecidableEq, Repr

/-- The external artifact cache collaborator (`binary_install::Cache`):
its two download operations, each returning `Err`, `Ok(None)` (artifact
not present after the call) or `Ok(Some(download))`; the opaque `Download`
handle is modelled as a string. -/
structure CacheBehavior where
  download_version : Bool → String → List String → String → String →
    Except String (Option String)
  download_artifact_version : String → String → String →
    Except String (Option String)

/-- `download_prebuilt` from `src/install/mod.rs`, returning the Rust
result paired with the trace of calls made to the external cache: bail
with the unsupported-platform message when no URL resolves (no cache
call); otherwise one `download_version` call when binaries are expected,
one `download_artifact_version` call when not; `Ok(None)` from the cache
becomes the "not installed" error. -/
def download_prebuilt (C : CacheBehavior) (h : Host)
    (tool_name owner version : String) (binaries : List String) :
    Except String String × List CacheCall :=
  match prebuilt_url tool_name owner version h with
  | none =>
    (Except.error ("no prebuilt " ++ tool_name ++
      " binaries are available for this platform"), [])
  | some url =>
    if !binaries.isEmpty then
      (match C.download_version true tool_name binaries url version with
       | Except.error e => Except.error e
       | Except.ok (some download) => Except.ok download
       | Except.ok none => Except.error (tool_name ++ " is not installed!"),
       [CacheCall.download_version true tool_name binaries url version])
    else
      (match C.download_artifact_version tool_name url version with
       | Except.error e => Except.error e
       | Except.ok (some download) => Except.ok download
       | Except.ok none => Except.error (tool_name ++ " is not installed!"),
       [CacheCall.download_artifact_version tool_name url version])

/-- `install` from `src/install/mod.rs`, returning the Rust result paired
with the trace of cache calls: on `NeedsInstall` the expected-binaries
list is `[tool_name]` iff `is_binary`, the download is performed through
`download_prebuilt` at `version.to_string()`, and a download error is
wrapped as ``could not download `tool`\n…``; on `InstalledAt` the
discovered download is returned with no cache call. The outer `Option` is
panic propagation from `tool_needs_update`. -/
def install (C : CacheBehavior) (h : Host) (tool_name owner : String)
    (is_binary : Bool) (version : Version) (dest : String)
    (dir : DirListing) :
    Option (Except String String × List CacheCall) :=
  match tool_needs_update tool_name version dest dir with
  | none => none
  | some (Except.error e) => some (Except.error e, [])
  | some (Except.ok (ToolDownload.NeedsInstall v)) =>
    let binaries : List String := if is_binary then [tool_name] else []
    let dl := download_prebuilt C h tool_name owner (Version.toString v)
      binaries
    some
      ((match dl.1 with
        | Except.ok download => Except.ok download
        | Except.error e =>
          Except.error ("could not download `" ++ tool_name ++ "`\n" ++ e)),
       dl.2)
  | some (Except.ok (ToolDownload.InstalledAt download)) =>
    some (Except.ok download, [])

/-- `true` when the scan of `get_installation` selects this entry for the
given tool and target: a filename starting with the tool name whose
version suffix parses to exactly the target version. -/
def entrySelects (tool_name : String) (target_version : Version) :
    DirEntry → Bool
  | DirEntry.name f =>
    strStartsWith f tool_name &&
      (match (strSplit f (tool_name ++ "-"))[1]? with
       | some suffix => Version.parse suffix == some target_version
       | none => false)
  | _ => false

/-- `true` when this entry stops the scan of `get_installation`
abnormally: a per-entry read error (propagated with `?`) or a filename
that starts with the tool name but lacks the `"<tool_name>-"` separator
(the `[1]` index panics). -/
def entryDiverts (tool_name : String) : DirEntry → Bool
  | DirEntry.err _ => true
  | DirEntry.nonUnicode => false
  | DirEntry.name f =>
    strStartsWith f tool_name && ((strSplit f (tool_name ++ "-"))[1]? == none)

lemma get_installation_entries_eq_target (tool_name : String)
    (target_version : Version) (dest : String) :
    ∀ (l : List DirEntry) (iv : Version) (loc : String),
      get_installation_entries tool_name target_version dest l =
        some (Except.ok (some (iv, loc))) → iv = target_version := by
  intro l
  induction l with
  | nil => intro iv loc h; simp [get_installation_entries] at h
  | cons e rest ih =>
    intro iv loc h
    cases e with
    | err s => simp [get_installation_entries] at h
    | nonUnicode =>
      exact ih iv loc (by simpa [get_installation_entries] using h)
    | name f =>
      rw [get_installation_entries] at h
      split at h
      · split at h
        · exact absurd h (by simp)
        · split at h
          next v hv =>
            split at h
            next hveq =>
              rw [Option.some_inj] at h
              cases h
              exact hveq
            next hveq => exact ih iv loc h
          next hv => exact ih iv loc h
      · exact ih iv loc h

lemma get_installation_eq_target (tool_name : String)
    (target_version : Version) (dest : String) (dir : DirListing)
    (iv : Version) (loc : String) :
    get_installation tool_name target_version dest dir =
      some (Except.ok (some (iv, loc))) → iv = target_version := by
  intro h
  cases dir with
  | error e => simp [get_installation] at h
  | ok l =>
    exact get_installation_entries_eq_target tool_name target_version dest
      l iv loc (by simpa [get_installation] using h)

lemma get_installation_entries_none (tool_name : String)
    (target_version : Version) (dest : String) :
    ∀ l : List DirEntry,
      (∀ e ∈ l, entrySelects tool_name target_version e = false ∧
        entryDiverts tool_name e = false) →
      get_installation_entries tool_name target_version dest l =
        some (Except.ok none) := by
  intro l
  induction l with
  | nil => intro _; rfl
  | cons e rest ih =>
    intro hl
    obtain ⟨⟨hsel, hdiv⟩, hrest⟩ := List.forall_mem_cons.mp hl
    cases e with
    | err s => simp [entryDiverts] at hdiv
    | nonUnicode => simpa [get_installation_entries] using ih hrest
    | name f =>
      rw [get_installation_entries]
      split
      next hstart =>
        split
        next hsome =>
          rw [entryDiverts] at hdiv
          simp [hstart, hsome] at hdiv
        next suffix hsome =>
          split
          next v hv =>
            split
            next hveq =>
              rw [entrySelects] at hsel
              simp [hstart, hsome, hv, hveq] at hsel
            next hveq => exact ih hrest
          next hv => exact ih hrest
      next hstart => exact ih hrest

lemma version_ge_refl (v : Version) : Version.ge v v = true := by
  simp [Version.ge, Nat.ble_eq]

end Wrangler

namespace Wrangler

example : Version.parse "2.1.0" = some ⟨2, 1, 0⟩ := by decide
example : Version.parse "banana" = none := by decide
example : Version.parse "1.2" = none := by decide
example : Version.toString ⟨2, 10, 0⟩ = "2.10.0" := by decide
example : Version.ge ⟨2, 3, 0⟩ ⟨2, 1, 0⟩ = true := by decide
example : strSplit "foo-2.3.0" "foo-" = ["", "2.3.0"] := by decide
example : strSplit "foo" "foo-" = ["foo"] := by decide
example :
    get_installation "foo" ⟨2, 1, 0⟩ "cache"
      (Except.ok [DirEntry.name "foo-2.3.0"]) = some (Except.ok none) := by decide
example :
    get_installation "foo" ⟨2, 1, 0⟩ "cache"
      (Except.ok [DirEntry.name "foo"]) = none := by decide
example :
    tool_needs_update "foo" ⟨2, 1, 0⟩ "cache"
      (Except.ok [DirEntry.name "foo-2.3.0"]) =
      some (Except.ok (ToolDownload.NeedsInstall ⟨2, 1, 0⟩)) := by decide
example :
    tool_needs_update "foo" ⟨2, 1, 0⟩ "cache"
      (Except.ok [DirEntry.name "foo-2.1.0"]) =
      some (Except.ok (ToolDownload.InstalledAt "cache/foo-2.1.0")) := by decide

example :
    prebuilt_url "wasm-pack" "rustwasm" "0.8.1" ⟨OS.linux, Arch.x86_64⟩ =
      some "https://workers.cloudflare.com/get-binary/rustwasm/wasm-pack/v0.8.1/x86_64-unknown-linux-musl.tar.gz" := by
  decide

example :
    prebuilt_url "wasm-pack" "rustwasm" "0.8.1" ⟨OS.macos, Arch.aarch64⟩ =
      some "https://workers.cloudflare.com/get-override/rustwasm/wasm-pack/v0.8.1/aarch64-apple-darwin.tar.gz" := by
  decide

example :
    prebuilt_url "wranglerjs" "cloudflare" "1.0.0" ⟨OS.other, Arch.other⟩ =
      some "https://workers.cloudflare.com/get-wranglerjs-binary/wranglerjs/v1.0.0.tar.gz" := by
  decide

example :
    install ⟨fun _ _ _ _ _ => Except.ok (some "dl"), fun _ _ _ => Except.ok (some "dl")⟩
      ⟨OS.linux, Arch.x86_64⟩ "wasm-pack" "rustwasm" true ⟨0, 8, 1⟩ "cache"
      (Except.ok []) =
      some (Except.ok "dl",
        [CacheCall.download_version true "wasm-pack" ["wasm-pack"]
          "https://workers.cloudflare.com/get-binary/rustwasm/wasm-pack/v0.8.1/x86_64-unknown-linux-musl.tar.gz"
          "0.8.1"]) := by
  decide

/-- C1, as stated, is false of the code: for tool `"foo"`, target version
2.1.0 and a cache containing the single entry `"foo-2.3.0"`, the installed
version 2.3.0 has the same major as the target and is `>=` it, yet the
decision is `NeedsInstall 2.1.0`, not a reuse of the `"foo-2.3.0"` entry —
because `get_installation` only ever reports an exactly-equal version. -/
theorem C1_counterexample :
    Version.parse "2.3.0" = some ⟨2, 3, 0⟩ ∧
    (⟨2, 3, 0⟩ : Version).major = (⟨2, 1, 0⟩ : Version).major ∧
    Version.ge ⟨2, 3, 0⟩ ⟨2, 1, 0⟩ = true ∧
    tool_needs_update "foo" ⟨2, 1, 0⟩ "cache"
      (Except.ok [DirEntry.name "foo-2.3.0"]) =
      some (Except.ok (ToolDownload.NeedsInstall ⟨2, 1, 0⟩)) := by
  refine ⟨by decide, by decide, by decide, by decide⟩

/-- C1 (amended): the install decision reuses an installed copy if and
only if the cache inspector finds an entry whose parsed version is exactly
the target version (such a version trivially has the target's major and is
`>=` it); in every other case — including an installed version with the
same major that is strictly newer than the target — the decision is a
fresh install of exactly the target. In particular tool `"foo"` at 2.1.0
with cache entry `"foo-2.3.0"` yields a fresh install of 2.1.0, not a
reuse. -/
theorem C1_reuse_iff_exact_version :
    (∀ (tool_name dest : String) (target_version : Version)
      (dir : DirListing) (loc : String),
      tool_needs_update tool_name target_version dest dir =
          some (Except.ok (ToolDownload.InstalledAt loc)) ↔
        get_installation tool_name target_version dest dir =
          some (Except.ok (some (target_version, loc)))) ∧
    tool_needs_update "foo" ⟨2, 1, 0⟩ "cache"
      (Except.ok [DirEntry.name "foo-2.3.0"]) =
      some (Except.ok (ToolDownload.NeedsInstall ⟨2, 1, 0⟩)) := by
  constructor
  · intro tool_name dest target_version dir loc
    constructor
    · intro h
      rw [tool_needs_update] at h
      cases hg : get_installation tool_name target_version dest dir with
      | none => rw [hg] at h; exact absurd h (by simp)
      | some r =>
        rw [hg] at h
        rw [Option.some_inj] at h
        match r, h with
        | Except.error e, h => simp at h
        | Except.ok none, h => simp at h
        | Except.ok (some (iv, l)), h =>
          have hiv : iv = target_version :=
            get_installation_eq_target tool_name target_version dest dir
              iv l hg
          simp only at h
          split at h
          · injection h with h1
            injection h1 with h2
            rw [hiv, h2]
          · simp at h
    · intro hg
      rw [tool_needs_update, hg]
      simp [version_ge_refl]
  · decide

/-- C2: `get_installation` reports an installed pair `(iv, path)` only
when `iv` is exactly the target version, and reports nothing when no entry
of the listing selects (parses to a version equal to the target) — so only
an installed version identical to the requested target is ever discovered,
never a newer compatible one. -/
theorem C2_exact_equality_match :
    (∀ (tool_name dest : String) (target_version : Version)
      (dir : DirListing) (iv : Version) (loc : String),
      get_installation tool_name target_version dest dir =
        some (Except.ok (some (iv, loc))) → iv = target_version) ∧
    (∀ (tool_name dest : String) (target_version : Version)
      (l : List DirEntry),
      (∀ e ∈ l, entrySelects tool_name target_version e = false ∧
        entryDiverts tool_name e = false) →
      get_installation tool_name target_version dest (Except.ok l) =
        some (Except.ok none)) := by
  constructor
  · intro tool_name dest target_version dir iv loc h
    exact get_installation_eq_target tool_name target_version dest dir iv
      loc h
  · intro tool_name dest target_version l hl
    simpa [get_installation] using
      get_installation_entries_none tool_name target_version dest l hl

/-- Witness for C2 at a concrete input: the cache holds `"foo-2.3.0"`,
newer and major-compatible with the target 2.1.0, and the inspector still
discovers nothing. -/
theorem C2_witness :
    get_installation "foo" ⟨2, 1, 0⟩ "cache"
      (Except.ok [DirEntry.name "foo-2.3.0"]) = some (Except.ok none) :=
  C2_exact_equality_match.2 "foo" "cache" ⟨2, 1, 0⟩
    [DirEntry.name "foo-2.3.0"] (by decide)

/-- C3: a directory-read error propagates out of `get_installation` as an
error, while `tool_needs_update` absorbs it and answers
`NeedsInstall target_version`; and whenever `tool_needs_update` returns at
all, its result is `Ok` — a broken cache read can only cause a redundant
download, never an error from `tool_needs_update`. -/
theorem C3_read_error_asymmetry :
    (∀ (tool_name dest e : String) (target_version : Version),
      get_installation tool_name target_version dest (Except.error e) =
        some (Except.error e)) ∧
    (∀ (tool_name dest e : String) (target_version : Version),
      tool_needs_update tool_name target_version dest (Except.error e) =
        some (Except.ok (ToolDownload.NeedsInstall target_version))) ∧
    (∀ (tool_name dest : String) (target_version : Version)
      (dir : DirListing) (r : Except String ToolDownload),
      tool_needs_update tool_name target_version dest dir = some r →
      ∃ td, r = Except.ok td) := by
  refine ⟨fun _ _ _ _ => rfl, fun _ _ _ _ => rfl, ?_⟩
  intro tool_name dest target_version dir r h
  rw [tool_needs_update] at h
  cases hg : get_installation tool_name target_version dest dir with
  | none => rw [hg] at h; exact absurd h (by simp)
  | some r' =>
    rw [hg] at h
    rw [Option.some_inj] at h
    exact ⟨_, h.symm⟩

/-- Witness for C3 at a concrete input: a failing directory read for tool
`"foo"` at target 1.0.0 propagates out of `get_installation`, is absorbed
by `tool_needs_update` into a fresh-install decision, and that returned
result is an `Ok`. -/
theorem C3_witness :
    get_installation "foo" ⟨1, 0, 0⟩ "cache" (Except.error "denied") =
      some (Except.error "denied") ∧
    tool_needs_update "foo" ⟨1, 0, 0⟩ "cache" (Except.error "denied") =
      some (Except.ok (ToolDownload.NeedsInstall ⟨1, 0, 0⟩)) ∧
    ∃ td, (Except.ok (ToolDownload.NeedsInstall ⟨1, 0, 0⟩) :
      Except String ToolDownload) = Except.ok td :=
  ⟨C3_read_error_asymmetry.1 "foo" "cache" "denied" ⟨1, 0, 0⟩,
   C3_read_error_asymmetry.2.1 "foo" "cache" "denied" ⟨1, 0, 0⟩,
   C3_read_error_asymmetry.2.2 "foo" "cache" ⟨1, 0, 0⟩
     (Except.error "denied") _
     (C3_read_error_asymmetry.2.1 "foo" "cache" "denied" ⟨1, 0, 0⟩)⟩

/-- C4: a cache entry whose filename starts with the tool name and carries
the `"<tool_name>-"` separator but whose version suffix does not parse as
a semantic version is silently skipped by `get_installation`: scanning the
listing with that entry in front gives exactly the result of scanning the
rest, so the entry is never selected and never causes an error. -/
theorem C4_unparseable_suffix_skipped :
    ∀ (tool_name dest : String) (target_version : Version)
      (f suffix : String) (rest : List DirEntry),
      strStartsWith f tool_name = true →
      (strSplit f (tool_name ++ "-"))[1]? = some suffix →
      Version.parse suffix = none →
      get_installation tool_name target_version dest
          (Except.ok (DirEntry.name f :: rest)) =
        get_installation tool_name target_version dest (Except.ok rest) := by
  intro tool_name dest target_version f suffix rest h1 h2 h3
  simp [get_installation, get_installation_entries, h1, h2, h3]

/-- Witness for C4 at a concrete input: the entry `"foo-banana"` for tool
`"foo"` is skipped, leaving the scan of the empty rest. -/
theorem C4_witness :
    get_installation "foo" ⟨1, 0, 0⟩ "cache"
        (Except.ok [DirEntry.name "foo-banana"]) =
      get_installation "foo" ⟨1, 0, 0⟩ "cache" (Except.ok []) :=
  C4_unparseable_suffix_skipped "foo" "cache" ⟨1, 0, 0⟩ "foo-banana"
    "banana" [] (by decide) (by decide) (by decide)

/-- C5: over every (OS, architecture) pair the platform resolution of
`prebuilt_url` is exactly the four-entry table — Linux+x86_64,
macOS+x86_64, Windows+x86_64 and macOS+aarch64 each yield their triple,
and every other combination yields no value; being a function, it never
yields more than one triple. -/
theorem C5_platform_resolution :
    ∀ h : Host,
      resolve_target h =
        match h.os, h.arch with
        | OS.linux, Arch.x86_64 => some "x86_64-unknown-linux-musl"
        | OS.macos, Arch.x86_64 => some "x86_64-apple-darwin"
        | OS.windows, Arch.x86_64 => some "x86_64-pc-windows-msvc"
        | OS.macos, Arch.aarch64 => some "aarch64-apple-darwin"
        | _, _ => none := by
  intro h
  obtain ⟨os, arch⟩ := h
  cases os <;> cases arch <;> rfl

/-- Witness for C1 (amended) at a concrete input: an exactly-equal cache
entry `"foo-2.1.0"` for target 2.1.0 is reused, with the path of that
entry. -/
theorem C1_witness :
    tool_needs_update "foo" ⟨2, 1, 0⟩ "cache"
        (Except.ok [DirEntry.name "foo-2.1.0"]) =
      some (Except.ok (ToolDownload.InstalledAt "cache/foo-2.1.0")) :=
  (C1_reuse_iff_exact_version.1 "foo" "cache" ⟨2, 1, 0⟩
    (Except.ok [DirEntry.name "foo-2.1.0"]) "cache/foo-2.1.0").mpr
    (by decide)

/-- C6: for every non-legacy tool name, owner and version, when the
resolved triple is `aarch64-apple-darwin` the URL is the `get-override`
template with the same four parameters, never the `get-binary` one; for
every other resolved triple it is the `get-binary` template. -/
theorem C6_override_template :
    ∀ (tool_name owner version : String) (h : Host),
      (tool_name == "wranglerjs") = false →
      (resolve_target h = some "aarch64-apple-darwin" →
        prebuilt_url tool_name owner version h =
          some ("https://workers.cloudflare.com/get-override/" ++ owner ++
            "/" ++ tool_name ++ "/v" ++ version ++ "/" ++
            "aarch64-apple-darwin" ++ ".tar.gz")) ∧
      (∀ t, resolve_target h = some t →
        (t == "aarch64-apple-darwin") = false →
        prebuilt_url tool_name owner version h =
          some ("https://workers.cloudflare.com/get-binary/" ++ owner ++
            "/" ++ tool_name ++ "/v" ++ version ++ "/" ++ t ++
            ".tar.gz")) := by
  intro tool_name owner version h hn
  constructor
  · intro ht
    simp [prebuilt_url, hn, ht]
  · intro t ht hne
    simp [prebuilt_url, hn, ht, hne]

/-- Witness for C6 at a concrete input: a non-legacy tool on
macOS+aarch64 goes to the override endpoint. -/
theorem C6_witness :
    prebuilt_url "wasm-pack" "rustwasm" "0.8.1" ⟨OS.macos, Arch.aarch64⟩ =
      some ("https://workers.cloudflare.com/get-override/" ++ "rustwasm" ++
        "/" ++ "wasm-pack" ++ "/v" ++ "0.8.1" ++ "/" ++
        "aarch64-apple-darwin" ++ ".tar.gz") :=
  (C6_override_template "wasm-pack" "rustwasm" "0.8.1"
    ⟨OS.macos, Arch.aarch64⟩ (by decide)).1 (by decide)

/-- C7: for every owner and host platform, the legacy name
`"wranglerjs"` yields exactly the `get-wranglerjs-binary` URL, which is
built from the tool name and version alone — the owner and the host do
not appear in it and do not affect it. -/
theorem C7_legacy_bypasses_owner_target :
    ∀ (owner version : String) (h : Host),
      prebuilt_url "wranglerjs" owner version h =
        some ("https://workers.cloudflare.com/get-wranglerjs-binary/" ++
          "wranglerjs" ++ "/v" ++ version ++ ".tar.gz") := by
  intro owner version h
  rfl

/-- C8: on a `NeedsInstall` decision (with the platform resolving to a
URL) `install` makes exactly one cache call — the binary-aware
`download_version` with `[tool_name]` as the sole expected binary when
`is_binary` is true, the generic `download_artifact_version` when it is
false — and a failing download surfaces as ``could not download
`tool`\n…``; on an `InstalledAt` decision it makes no cache call and
returns the discovered download. -/
theorem C8_install_routing :
    ∀ (C : CacheBehavior) (h : Host) (tool_name owner dest : String)
      (v : Version) (dir : DirListing) (url : String),
      (tool_needs_update tool_name v dest dir =
          some (Except.ok (ToolDownload.NeedsInstall v)) →
        prebuilt_url tool_name owner (Version.toString v) h = some url →
        install C h tool_name owner true v dest dir =
          some
            ((match C.download_version true tool_name [tool_name] url
                (Version.toString v) with
              | Except.error e =>
                Except.error
                  ("could not download `" ++ tool_name ++ "`\n" ++ e)
              | Except.ok (some d) => Except.ok d
              | Except.ok none =>
                Except.error ("could not download `" ++ tool_name ++
                  "`\n" ++ (tool_name ++ " is not installed!"))),
             [CacheCall.download_version true tool_name [tool_name] url
               (Version.toString v)]) ∧
        install C h tool_name owner false v dest dir =
          some
            ((match C.download_artifact_version tool_name url
                (Version.toString v) with
              | Except.error e =>
                Except.error
                  ("could not download `" ++ tool_name ++ "`\n" ++ e)
              | Except.ok (some d) => Except.ok d
              | Except.ok none =>
                Except.error ("could not download `" ++ tool_name ++
                  "`\n" ++ (tool_name ++ " is not installed!"))),
             [CacheCall.download_artifact_version tool_name url
               (Version.toString v)])) ∧
      (∀ loc is_binary,
        tool_needs_update tool_name v dest dir =
            some (Except.ok (ToolDownload.InstalledAt loc)) →
          install C h tool_name owner is_binary v dest dir =
            some (Except.ok loc, [])) := by
  intro C h tool_name owner dest v dir url
  constructor
  · intro hup hurl
    constructor
    · rw [install, hup]
      simp only [download_prebuilt, hurl]
      cases hr : C.download_version true tool_name [tool_name] url
        (Version.toString v) with
      | error e => simp [hr]
      | ok o => cases o <;> simp [hr]
    · rw [install, hup]
      simp only [download_prebuilt, hurl]
      cases hr : C.download_artifact_version tool_name url
        (Version.toString v) with
      | error e => simp [hr]
      | ok o => cases o <;> simp [hr]
  · intro loc is_binary hup
    rw [install, hup]

/-- Witness for C8 at a concrete input: empty cache, Linux+x86_64 host,
and an artifact cache that returns the handle `"dl"`: installing
`wasm-pack` 0.8.1 with `is_binary = true` makes exactly the one
binary-aware call, and the `InstalledAt` branch follows from a cache
holding `"wasm-pack-0.8.1"`. -/
theorem C8_witness :
    install
        ⟨fun _ _ _ _ _ => Except.ok (some "dl"),
         fun _ _ _ => Except.ok (some "dl")⟩
        ⟨OS.linux, Arch.x86_64⟩ "wasm-pack" "rustwasm" true ⟨0, 8, 1⟩
        "cache" (Except.ok []) =
      some (Except.ok "dl",
        [CacheCall.download_version true "wasm-pack" ["wasm-pack"]
          "https://workers.cloudflare.com/get-binary/rustwasm/wasm-pack/v0.8.1/x86_64-unknown-linux-musl.tar.gz"
          "0.8.1"]) ∧
    install
        ⟨fun _ _ _ _ _ => Except.ok (some "dl"),
         fun _ _ _ => Except.ok (some "dl")⟩
        ⟨OS.linux, Arch.x86_64⟩ "wasm-pack" "rustwasm" true ⟨0, 8, 1⟩
        "cache" (Except.ok [DirEntry.name "wasm-pack-0.8.1"]) =
      some (Except.ok "cache/wasm-pack-0.8.1", []) :=
  ⟨((C8_install_routing
      ⟨fun _ _ _ _ _ => Except.ok (some "dl"),
       fun _ _ _ => Except.ok (some "dl")⟩
      ⟨OS.linux, Arch.x86_64⟩ "wasm-pack" "rustwasm" "cache" ⟨0, 8, 1⟩
      (Except.ok [])
      "https://workers.cloudflare.com/get-binary/rustwasm/wasm-pack/v0.8.1/x86_64-unknown-linux-musl.tar.gz").1
      (by decide) (by decide)).1,
   (C8_install_routing
      ⟨fun _ _ _ _ _ => Except.ok (some "dl"),
       fun _ _ _ => Except.ok (some "dl")⟩
      ⟨OS.linux, Arch.x86_64⟩ "wasm-pack" "rustwasm" "cache" ⟨0, 8, 1⟩
      (Except.ok [DirEntry.name "wasm-pack-0.8.1"])
      "unused").2 "cache/wasm-pack-0.8.1" true (by decide)⟩

/-- C9's claim that the `[1]` index in `get_installation` is always in
bounds is false of the code: a cache entry named exactly the tool name
(here `"foo"`, with no `"-<version>"` suffix) starts with the tool name
but does not contain the separator `"foo-"`, the split yields a single
piece, and the indexing panics (`none` is the panic outcome of the
model). -/
theorem C9_panic_on_separatorless_entry :
    get_installation "foo" ⟨1, 0, 0⟩ "cache"
      (Except.ok [DirEntry.name "foo"]) = none := by
  decide

/-- C10: for the legacy name `"wranglerjs"` a URL resolves for every
owner, version and host — including hosts with no resolvable triple — and
`download_prebuilt` therefore always reaches the artifact cache (exactly
one call), so its no-prebuilt-binaries-for-this-platform bail-out, which
makes no cache call, is unreachable for `"wranglerjs"`. -/
theorem C10_legacy_unreachable_platform_failure :
    ∀ (C : CacheBehavior) (h : Host) (owner version : String)
      (binaries : List String),
      (prebuilt_url "wranglerjs" owner version h).isSome = true ∧
      (download_prebuilt C h "wranglerjs" owner version binaries).2.length =
        1 := by
  intro C h owner version binaries
  refine ⟨rfl, ?_⟩
  rw [download_prebuilt]
  rw [show prebuilt_url "wranglerjs" owner version h =
    some ("https://workers.cloudflare.com/get-wranglerjs-binary/" ++
      "wranglerjs" ++ "/v" ++ version ++ ".tar.gz") from rfl]
  cases hb : binaries.isEmpty <;> simp [hb]

end Wrangler
